import Mathlib

/-!
Verification of the randomized-benchmarking fitter pipeline
(qiskit/ignis/verification/randomized_benchmarking/fitters.py).

The development shallowly embeds the data-reduction and fitting pipeline of
the RBFitter and InterleavedRBFitter classes.  Counts dictionaries are
embedded as association lists whose semantics is the per-key sum (countOf):
merging several dictionaries is list concatenation and a lookup sums every
entry with the matching key, which agrees with a Python dict produced by
summing per key.  Circuit names, whose format is the external contract
"<type>_length_<lengthIndex>_seed_<seed>", are embedded as the structure
CircName holding the three components; under that contract the Python
expressions name.split("_length")[0] and name.split('_')[-1] recover the
ctype and seed fields respectively.  Real-valued arithmetic performed with
floats in the source is embedded over the real numbers; the nonlinear
optimizer (scipy.optimize.curve_fit) is an external collaborator and is
embedded as an arbitrary deterministic function parameter.
-/

namespace RBFit

/-- A measured outcome bit string; entry i is the bit of qubit position i. -/
abbrev Outcome := List Bool

/-- A counts dictionary: association list from outcome to shot count, with
per-key-summing lookup semantics (countOf). -/
abbrev Counts := List (Outcome × ℕ)

/-- Total count stored for an outcome key (the dict lookup, after summing
duplicate keys). -/
def countOf (c : Counts) (o : Outcome) : ℕ :=
  ((c.filter fun p => p.1 = o).map fun p => p.2).sum

/-- Sum of all values of a counts dictionary: sum(counts.values()), the total
number of shots. -/
def totalShots (c : Counts) : ℕ :=
  (c.map fun p => p.2).sum

/-- Modelled from the spec: the external counts-merging utility
build_counts_dict_from_list (missing from src) sums the dictionaries in the
list per key.  In the association-list representation this is concatenation;
countOf performs the per-key summation. -/
def build_counts_dict_from_list (l : List Counts) : Counts :=
  l.flatten

/-- Modelled from the spec: the external marginalization utility
marginal_counts (missing from src) re-expresses every key over just the
given qubit positions; counts of outcomes that agree on those positions are
summed, which here is again performed by countOf. -/
def marginal_counts (c : Counts) (idxs : List ℕ) : Counts :=
  c.map fun p => (idxs.map fun i => p.1.getD i false, p.2)

/-- The all-zero outcome string of the given width: ''.zfill(n). -/
def stringOfZeros (n : ℕ) : Outcome :=
  List.replicate n false

/-- A circuit name under the naming contract
"<type>_length_<lengthIndex>_seed_<seed>".  The field ctype is what
name.split("_length")[0] returns and seed is what name.split('_')[-1]
returns for a name obeying the contract. -/
structure CircName where
  ctype : String
  lengthIdx : ℕ
  seed : ℕ
deriving DecidableEq, Repr

/-- One experiment entry of a backend result: a circuit name together with
its counts dictionary. -/
structure ExpResult where
  name : CircName
  counts : Counts
deriving DecidableEq, Repr

/-- One backend result (qiskit.Result): the list of its experiment
entries (result.results). -/
structure PyResult where
  results : List ExpResult
deriving DecidableEq, Repr

/-- result.get_counts(name): the counts of the circuit with the given name,
or none when the result does not contain it (the QiskitError/KeyError
branch that calc_data catches and skips). -/
def getCounts (r : PyResult) (nm : CircName) : Option Counts :=
  (r.results.find? fun c => c.name = nm).map fun c => c.counts

/-- The merged counts dictionary for one circuit name accumulated over all
retained results, as built in calc_data: the results that do not contain
the circuit are skipped, the rest are merged by
build_counts_dict_from_list. -/
def mergedCounts (results : List PyResult) (nm : CircName) : Counts :=
  build_counts_dict_from_list (results.filterMap fun r => getCounts r nm)

/-- The experiment-type prefix, extracted in calc_data from the first
retained result's first circuit name by splitting at "_length"
(self._result_list[0].results[0].header.name.split("_length")[0]). -/
def circNameType (results : List PyResult) : String :=
  (((results.headD ⟨[]⟩).results.headD ⟨⟨"", 0, 0⟩, []⟩).name).ctype

/-- The (startind, endind) marginalization window for each pattern, as
computed by the loop in calc_data: startind begins at 0, each pattern uses
the window [startind, startind + size), and the loop then executes
startind += (endind), that is, the next startind is
startind + (startind + size). -/
def pattRanges (sizes : List ℕ) : List (ℕ × ℕ) :=
  (sizes.foldl
    (fun acc n =>
      let startind := acc.2
      let endind := startind + n
      (acc.1 ++ [(startind, endind)], startind + endind))
    (([], 0) : List (ℕ × ℕ) × ℕ)).1

/-- Claim C3 (code evaluated at the failing input): for three one-qubit
patterns the windows computed by calc_data are [0,1), [1,2) and [3,4) —
the third pattern is marginalized onto position 3, not onto position 2 as
the cumulative-sum bookkeeping stated in the spec (and in the calc_data
docstring, which promises the probability for the set of qubits in
pattern i) requires. -/
theorem calc_data_offsets_wrong_for_three_patterns :
    pattRanges [1, 1, 1] = [(0, 1), (1, 2), (3, 4)] ∧
      pattRanges [1, 1, 1] ≠ [(0, 1), (1, 2), (2, 3)] := by
  constructor
  · rfl
  · decide

/-- Events observable during InterleavedRBFitter.add_data.  The Bool child
argument selects the child fitter: false is the reference (standard) child
rbfit_std, true is the interleaved child rbfit_int. -/
inductive FitEvent where
  | childAddData (child : Bool) (rerun : Bool)
  | childCalcData (child : Bool)
  | childCalcStats (child : Bool)
  | childFitData (child : Bool)
  | combine
deriving DecidableEq, Repr

/-- Trace of RBFitter.add_data on one child: the call itself followed, when
its rerun flag is true, by the child's own recompute pipeline
(calc_data, calc_statistics, fit_data). -/
def rbAddDataTrace (child : Bool) (rerun : Bool) : List FitEvent :=
  [FitEvent.childAddData child rerun] ++
    (if rerun then
      [FitEvent.childCalcData child, FitEvent.childCalcStats child,
        FitEvent.childFitData child]
    else [])

/-- Trace of InterleavedRBFitter.fit_data: it first re-runs both children's
fit_data and then performs the joint combination. -/
def interleavedFitDataTrace : List FitEvent :=
  [FitEvent.childFitData false, FitEvent.childFitData true, FitEvent.combine]

/-- Trace of InterleavedRBFitter.add_data as written in the source: each
batch is forwarded to the corresponding child's add_data with the caller's
rerun_fit flag passed through unchanged, and afterwards, if rerun_fit,
fit_data runs. -/
def interleavedAddDataTrace (rerun : Bool) : List FitEvent :=
  rbAddDataTrace false rerun ++ rbAddDataTrace true rerun ++
    (if rerun then interleavedFitDataTrace else [])

/-- Trace of InterleavedRBFitter.add_data as the spec sentence describes it:
each batch forwarded to the child's add_data with the child's fit rerun
suppressed (flag false), then, if rerun_fit, the joint combination. -/
def specInterleavedAddDataTrace (rerun : Bool) : List FitEvent :=
  rbAddDataTrace false false ++ rbAddDataTrace true false ++
    (if rerun then interleavedFitDataTrace else [])

/-- Claim C4 (counterexample): with rerun_fit = true the code does not
suppress the children's fit rerun — it forwards rerun_fit = true, so each
child runs its own full pipeline during forwarding, and the trace differs
from the trace the spec describes. -/
theorem interleaved_add_data_not_suppressed :
    interleavedAddDataTrace true ≠ specInterleavedAddDataTrace true := by
  decide

/-- Claim C4 (amended): InterleavedRBFitter.add_data forwards each batch to
the corresponding child's add_data with the caller's rerun_fit flag passed
through unchanged (so with rerun_fit true each child also reruns its own
pipeline during forwarding), and only afterwards, if rerun_fit is true,
fit_data re-runs both underlying fits and performs the joint combination
once, as the final event. -/
theorem interleaved_add_data_trace_spec :
    ∀ rerun : Bool,
      interleavedAddDataTrace rerun =
        [FitEvent.childAddData false rerun] ++
          (if rerun then
            [FitEvent.childCalcData false, FitEvent.childCalcStats false,
              FitEvent.childFitData false] else []) ++
          [FitEvent.childAddData true rerun] ++
          (if rerun then
            [FitEvent.childCalcData true, FitEvent.childCalcStats true,
              FitEvent.childFitData true] else []) ++
          (if rerun then
            [FitEvent.childFitData false, FitEvent.childFitData true,
              FitEvent.combine] else []) := by
  decide

/-- Python division of two integer scalars, as performed by the expression
counts_subspace.get(string_of_0s, 0) / circ_shots[circ_name] in calc_data:
a true division that raises ZeroDivisionError when the denominator is
zero.  The exact quotient is returned as a rational. -/
def pyDiv (a b : ℕ) : Except String ℚ :=
  if b = 0 then Except.error "ZeroDivisionError" else Except.ok ((a : ℚ) / b)

/-- The survival-probability entry computed by calc_data for one circuit,
with Python scalar-division semantics: the count of the all-zero outcome on
the marginalized window [s, e) divided by the total shots of the merged
counts. -/
def calcDataEntryPy (c : Counts) (s e width : ℕ) : Except String ℚ :=
  pyDiv (countOf (marginal_counts c (List.range' s (e - s))) (stringOfZeros width))
    (totalShots c)

/-- Claim C9 (counterexample): for a circuit whose merged counts sum to zero
total shots (here: an empty merged dictionary), calc_data's
survival-probability computation raises a division-by-zero error — no
value, finite or not, is produced and stored in raw data. -/
theorem calc_data_zero_shots_raises :
    calcDataEntryPy [] 0 1 1 = Except.error "ZeroDivisionError" := by
  rfl

/-- Claim C9 (amended): calc_data does not intercept the division by zero —
whenever the merged counts for a circuit sum to zero total shots, the
survival-probability computation fails with a raised ZeroDivisionError at
that point (Python true division of integer scalars), rather than either
substituting a corrected value or storing a non-finite value. -/
theorem calc_data_zero_shots_not_intercepted :
    ∀ (c : Counts) (s e width : ℕ),
      calcDataEntryPy c s e width =
        if totalShots c = 0 then Except.error "ZeroDivisionError"
        else
          Except.ok
            ((countOf (marginal_counts c (List.range' s (e - s)))
                (stringOfZeros width) : ℚ) / (totalShots c : ℚ)) := by
  intro c s e width
  by_cases h : totalShots c = 0 <;> simp [calcDataEntryPy, pyDiv, h]

/-- One step of evaluating the property RBFitter.cliff_lengths: its body is
return self.cliff_lengths, which re-invokes the very same property, so
evaluation with fuel n + 1 reduces to evaluation with fuel n; fuel 0 models
Python's exhausted recursion limit (RecursionError), which produces no
value.  The stored sequence self._cliff_lengths is the argument, never
consulted by the body. -/
def rbCliffLengthsEval (stored : List (List ℕ)) : ℕ → Option (List (List ℕ))
  | 0 => none
  | n + 1 => rbCliffLengthsEval stored n

/-- Evaluation of the property InterleavedRBFitter.cliff_lengths, whose body
is likewise return self.cliff_lengths. -/
def interleavedCliffLengthsEval (stored : List (List ℕ)) :
    ℕ → Option (List (List ℕ))
  | 0 => none
  | n + 1 => interleavedCliffLengthsEval stored n

/-- Claim C10: for every stored Clifford-length sequence and every recursion
budget, evaluating the cliff_lengths accessor of either fitter class never
yields a value — in particular it never returns the stored sequence; the
evaluation only ends by exhausting the recursion limit. -/
theorem cliff_lengths_never_returns :
    ∀ (stored : List (List ℕ)) (fuel : ℕ),
      rbCliffLengthsEval stored fuel = none ∧
        interleavedCliffLengthsEval stored fuel = none := by
  intro stored fuel
  induction fuel with
  | zero => exact ⟨rfl, rfl⟩
  | succ n ih => exact ⟨ih.1, ih.2⟩

noncomputable section

/-- The per-length survival probability stored by calc_data, with the real
division used throughout the real-valued pipeline embedding: the count of
the all-zero outcome on the marginalized window [s, e) divided by the total
shots of the merged counts. -/
def survivalProb (c : Counts) (s e width : ℕ) : ℝ :=
  (countOf (marginal_counts c (List.range' s (e - s))) (stringOfZeros width) : ℝ) /
    (totalShots c : ℝ)

/-- The three decay-model parameters (a, alpha, b) of rb_fit_fun, in the
order params[0], params[1], params[2] of the source. -/
structure FitParams where
  a : ℝ
  alpha : ℝ
  b : ℝ

/-- The per-pattern fit dictionary stored by fit_data_pattern. -/
structure FitRecord where
  params : FitParams
  params_err : FitParams
  epc : ℝ
  epc_err : ℝ

/-- The external nonlinear optimizer (scipy.optimize.curve_fit together with
the square root of the covariance diagonal): from the x data (lengths), the
y data (means), the optional weights sigma and the initial guess it returns
the fitted parameters and their standard errors.  It is an external
collaborator, embedded as an arbitrary deterministic function. -/
abbrev CurveFit :=
  List ℕ → List ℝ → Option (List ℝ) → ℝ × ℝ × ℝ → FitParams × FitParams

/-- The per-pattern aggregate statistics stored by calc_statistics:
ydata[i]['mean'] and ydata[i]['std'] (None when only one seed exists). -/
structure Ydata where
  mean : List ℝ
  std : Option (List ℝ)

/-- The sigma argument passed to curve_fit by fit_data_pattern: the stored
standard deviations, replaced by None when they are absent or when at least
one of them is zero (len(sigma) - np.count_nonzero(sigma) > 0). -/
def sigmaOf (std : Option (List ℝ)) : Option (List ℝ) :=
  match std with
  | none => none
  | some s => if ∃ x ∈ s, x = 0 then none else some s

/-- RBFitter.fit_data_pattern: call the optimizer on the pattern's lengths,
means, sigma and guess, then store the parameters, their errors, the error
per Clifford epc = (nrb-1)/nrb*(1-alpha) with nrb = 2**len(qubits), and
epc_err = epc*alpha_err/alpha. -/
def fit_data_pattern (cf : CurveFit) (lens qubits : List ℕ) (yd : Ydata)
    (guess : ℝ × ℝ × ℝ) : FitRecord :=
  let pr := cf lens yd.mean (sigmaOf yd.std) guess
  let nrb : ℝ := 2 ^ qubits.length
  let epc := (nrb - 1) / nrb * (1 - pr.1.alpha)
  let epc_err := epc * pr.2.alpha / pr.1.alpha
  ⟨pr.1, pr.2, epc, epc_err⟩

/-- The initial-guess construction of RBFitter.fit_data for one pattern.
The guess list starts as [0.95, 0.99, 0.0]; entries 0 and 2 are overwritten
unconditionally before being consulted, so only the 0.99 default in entry 1
survives to the conditional.  Exponentiation dy**(1/dcliff) with a real
exponent is embedded as the real power Real.rpow, and the final integer
power fit_guess[1]**cliff_lengths[0] as the monoid power. -/
def fitGuess (qubits lens : List ℕ) (mean : List ℝ) : ℝ × ℝ × ℝ :=
  let fg1 := (0.99 : ℝ)
  let fg2 := 1 / (2 : ℝ) ^ qubits.length
  let y0 := mean.getD 0 0
  let y1 := mean.getD 1 0
  let dcliff : ℝ := (lens.getD 1 0 : ℝ) - (lens.getD 0 0 : ℝ)
  let dy := (y1 - fg2) / (y0 - fg2)
  let alphaGuess := dy ^ ((1 : ℝ) / dcliff)
  let fg1 := if alphaGuess < 1 then alphaGuess else fg1
  let fg0 := (y0 - fg2) / fg1 ^ lens.getD 0 0
  (fg0, fg1, fg2)

/-- The guess construction as the spec sentences for claim C7 state it:
B0 = 1/nrb, dy = (y1-B0)/(y0-B0), alpha0 = dy^(1/(L1-L0)) accepted only
when below 1 with fixed fallback 0.99, and A0 = (y0-B0)/alpha0^L0
recomputed with the chosen alpha0. -/
def specFitGuess (qubits lens : List ℕ) (mean : List ℝ) : ℝ × ℝ × ℝ :=
  let nrb : ℝ := (2 : ℝ) ^ qubits.length
  let b0 := 1 / nrb
  let y0 := mean.getD 0 0
  let y1 := mean.getD 1 0
  let l0 := lens.getD 0 0
  let l1 := lens.getD 1 0
  let dy := (y1 - b0) / (y0 - b0)
  let alphaCandidate := dy ^ ((1 : ℝ) / ((l1 : ℝ) - (l0 : ℝ)))
  let alpha0 := if alphaCandidate < 1 then alphaCandidate else 0.99
  let a0 := (y0 - b0) / alpha0 ^ l0
  (a0, alpha0, b0)

/-- RBFitter.fit_data: for every pattern, build the initial guess from that
pattern's means and lengths and invoke fit_data_pattern with it. -/
def computeFit (cf : CurveFit) (cl patterns : List (List ℕ)) (yd : List Ydata) :
    List (Option FitRecord) :=
  (List.range patterns.length).map fun i =>
    some (fit_data_pattern cf (cl.getD i []) (patterns.getD i [])
      (yd.getD i ⟨[], none⟩)
      (fitGuess (patterns.getD i []) (cl.getD i []) (yd.getD i ⟨[], none⟩).mean))

/-- Claim C7: the fit initial guess equals the spec's closed form — the
floor B0 = 1/nrb, the decay estimate alpha0 = ((y1-B0)/(y0-B0))^(1/(L1-L0))
used only when below 1 with fixed fallback 0.99, and A0 = (y0-B0)/alpha0^L0
recomputed with the chosen alpha0 — and fit_data invokes the fit of every
pattern with exactly that guess (A0, alpha0, B0). -/
theorem fit_guess_formulas :
    (∀ (qubits lens : List ℕ) (mean : List ℝ),
      fitGuess qubits lens mean = specFitGuess qubits lens mean) ∧
      ∀ (cf : CurveFit) (cl patterns : List (List ℕ)) (yd : List Ydata),
        computeFit cf cl patterns yd =
          (List.range patterns.length).map fun i =>
            some (fit_data_pattern cf (cl.getD i []) (patterns.getD i [])
              (yd.getD i ⟨[], none⟩)
              (fitGuess (patterns.getD i []) (cl.getD i [])
                (yd.getD i ⟨[], none⟩).mean)) := by
  exact ⟨fun qubits lens mean => rfl, fun cf cl patterns yd => rfl⟩

/-- Claim C2: fit_data_pattern stores epc = (nrb-1)/nrb*(1-alpha) with
nrb = 2^(number of qubits in the pattern), and epc_err = epc*alpha_err/alpha
(first-order, non-quadrature propagation), where (alpha, alpha_err) are the
fitted decay parameter and its standard error returned by the optimizer. -/
theorem fit_data_pattern_epc_formulas :
    ∀ (cf : CurveFit) (lens qubits : List ℕ) (yd : Ydata) (guess : ℝ × ℝ × ℝ)
      (p e : FitParams),
      cf lens yd.mean (sigmaOf yd.std) guess = (p, e) →
      p.alpha ≠ 0 →
      (fit_data_pattern cf lens qubits yd guess).epc =
          ((2 : ℝ) ^ qubits.length - 1) / (2 : ℝ) ^ qubits.length *
            (1 - p.alpha) ∧
        (fit_data_pattern cf lens qubits yd guess).epc_err =
          (fit_data_pattern cf lens qubits yd guess).epc * e.alpha / p.alpha := by
  intro cf lens qubits yd guess p e hcf _
  simp [fit_data_pattern, hcf]

/-- The dictionary appended to _fit_interleaved for one pattern by
InterleavedRBFitter.fit_data. -/
structure InterleavedFitRecord where
  alpha : ℝ
  alpha_err : ℝ
  alpha_c : ℝ
  alpha_c_err : ℝ
  epc_est : ℝ
  epc_est_err : ℝ
  systematic_err : ℝ
  systematic_err_L : ℝ
  systematic_err_R : ℝ

/-- The per-pattern interleaved fit record stored by
InterleavedRBFitter.fit_data (the dictionary appended to _fit_interleaved),
computed from the pattern's qubits, the reference decay parameter alpha and
its error, and the interleaved decay parameter alpha_c and its error. -/
def interleavedFitPattern (qubits : List ℕ) (alpha alpha_err alpha_c alpha_c_err : ℝ) :
    InterleavedFitRecord :=
  let nrb : ℝ := 2 ^ qubits.length
  let epc_est := (nrb - 1) * (1 - alpha_c / alpha) / nrb
  let systematic_err_1 := (nrb - 1) * (|alpha - alpha_c / alpha| + (1 - alpha)) / nrb
  let systematic_err_2 :=
    2 * (nrb * nrb - 1) * (1 - alpha) / (alpha * nrb * nrb) +
      4 * Real.sqrt (1 - alpha) * Real.sqrt (nrb * nrb - 1) / alpha
  let systematic_err := min systematic_err_1 systematic_err_2
  let alpha_err_sq := alpha_err / alpha * (alpha_err / alpha)
  let alpha_c_err_sq := alpha_c_err / alpha_c * (alpha_c_err / alpha_c)
  let epc_est_err :=
    (nrb - 1) / nrb * (alpha_c / alpha) * Real.sqrt (alpha_err_sq + alpha_c_err_sq)
  ⟨alpha, alpha_err, alpha_c, alpha_c_err, epc_est, epc_est_err,
    systematic_err, epc_est - systematic_err, epc_est + systematic_err⟩

/-- Claim C1: the stored interleaved fit record satisfies the closed-form
estimator exactly, with nrb = 2^(number of qubits in the pattern):
epc_est = (nrb-1)/nrb*(1-alpha_c/alpha); systematic_err is the minimum of
bound1 = (nrb-1)/nrb*(|alpha-alpha_c/alpha| + (1-alpha)) and
bound2 = 2(nrb^2-1)(1-alpha)/(alpha nrb^2) + 4 sqrt(1-alpha) sqrt(nrb^2-1)/alpha;
the left and right endpoints are epc_est -+ systematic_err; and
epc_est_err = (nrb-1)/nrb*(alpha_c/alpha)*sqrt((alpha_err/alpha)^2 + (alpha_c_err/alpha_c)^2). -/
theorem interleaved_fit_formulas :
    ∀ (qubits : List ℕ) (alpha alpha_err alpha_c alpha_c_err : ℝ),
      (interleavedFitPattern qubits alpha alpha_err alpha_c alpha_c_err).epc_est =
          ((2 : ℝ) ^ qubits.length - 1) / (2 : ℝ) ^ qubits.length *
            (1 - alpha_c / alpha) ∧
        (interleavedFitPattern qubits alpha alpha_err alpha_c alpha_c_err).systematic_err =
          min
            (((2 : ℝ) ^ qubits.length - 1) / (2 : ℝ) ^ qubits.length *
              (|alpha - alpha_c / alpha| + (1 - alpha)))
            (2 * (((2 : ℝ) ^ qubits.length) ^ 2 - 1) * (1 - alpha) /
                (alpha * ((2 : ℝ) ^ qubits.length) ^ 2) +
              4 * Real.sqrt (1 - alpha) *
                Real.sqrt (((2 : ℝ) ^ qubits.length) ^ 2 - 1) / alpha) ∧
        (interleavedFitPattern qubits alpha alpha_err alpha_c alpha_c_err).systematic_err_L =
          (interleavedFitPattern qubits alpha alpha_err alpha_c alpha_c_err).epc_est -
            (interleavedFitPattern qubits alpha alpha_err alpha_c alpha_c_err).systematic_err ∧
        (interleavedFitPattern qubits alpha alpha_err alpha_c alpha_c_err).systematic_err_R =
          (interleavedFitPattern qubits alpha alpha_err alpha_c alpha_c_err).epc_est +
            (interleavedFitPattern qubits alpha alpha_err alpha_c alpha_c_err).systematic_err ∧
        (interleavedFitPattern qubits alpha alpha_err alpha_c alpha_c_err).epc_est_err =
          ((2 : ℝ) ^ qubits.length - 1) / (2 : ℝ) ^ qubits.length *
            (alpha_c / alpha) *
            Real.sqrt ((alpha_err / alpha) ^ 2 + (alpha_c_err / alpha_c) ^ 2) := by
  intro qubits alpha alpha_err alpha_c alpha_c_err
  have hsq : (2 : ℝ) ^ qubits.length * (2 : ℝ) ^ qubits.length =
      ((2 : ℝ) ^ qubits.length) ^ 2 := by ring
  have herr : alpha_err / alpha * (alpha_err / alpha) +
      alpha_c_err / alpha_c * (alpha_c_err / alpha_c) =
      (alpha_err / alpha) ^ 2 + (alpha_c_err / alpha_c) ^ 2 := by ring
  refine ⟨by simp only [interleavedFitPattern]; ring, ?_, rfl, rfl, ?_⟩
  · simp only [interleavedFitPattern, hsq]
    have h1 : ((2 : ℝ) ^ qubits.length - 1) *
        (|alpha - alpha_c / alpha| + (1 - alpha)) / (2 : ℝ) ^ qubits.length =
        ((2 : ℝ) ^ qubits.length - 1) / (2 : ℝ) ^ qubits.length *
          (|alpha - alpha_c / alpha| + (1 - alpha)) := by ring
    rw [h1]
    congr 1
    ring
  · simp only [interleavedFitPattern, herr]

/-- Mean of column j across the seed axis, as np.mean(raw_data, 0) computes
entry j for rectangular data: the sum of entry j over the rows divided by
the number of rows. -/
def colMean (rows : List (List ℝ)) (j : ℕ) : ℝ :=
  (rows.map fun r => r.getD j 0).sum / rows.length

/-- np.mean(rows, 0): the per-column means of rectangular data (the column
count read off the first row). -/
def npMeanAxis0 (rows : List (List ℝ)) : List ℝ :=
  (List.range (rows.headD []).length).map fun j => colMean rows j

/-- np.std(rows, 0): for each column, the square root of the mean of the
squared deviations from the column mean (numpy's population standard
deviation, the default ddof = 0). -/
def npStdAxis0 (rows : List (List ℝ)) : List ℝ :=
  (List.range (rows.headD []).length).map fun j =>
    Real.sqrt ((rows.map fun r => (r.getD j 0 - colMean rows j) ^ 2).sum / rows.length)

/-- The statistics stored by RBFitter.calc_statistics for one pattern: the
per-length means across seeds, and None for the standard deviations when
exactly one seed row is present, np.std across the seed axis otherwise. -/
def ydataOfPattern (rows : List (List ℝ)) : Ydata :=
  ⟨npMeanAxis0 rows, if rows.length = 1 then none else some (npStdAxis0 rows)⟩

/-- RBFitter.calc_statistics: per-pattern statistics over the raw survival
data. -/
def computeYdata (raw : List (List (List ℝ))) : List Ydata :=
  raw.map ydataOfPattern

/-- Direct recomputation of the population standard deviation of a sample,
as the spec sentences for claim C6 describe it, here in the algebraically
rearranged form sqrt(mean of squares minus square of mean). -/
def popStdDirect (xs : List ℝ) : ℝ :=
  Real.sqrt ((xs.map fun x => x ^ 2).sum / xs.length - (xs.sum / xs.length) ^ 2)

/-- Expansion of a sum of squared deviations. -/
theorem sum_sq_dev (xs : List ℝ) (m : ℝ) :
    (xs.map fun x => (x - m) ^ 2).sum =
      (xs.map fun x => x ^ 2).sum - 2 * m * xs.sum + xs.length * m ^ 2 := by
  induction xs with
  | nil => simp
  | cons a t ih =>
    simp only [List.map_cons, List.sum_cons, ih, List.length_cons]
    push_cast
    ring

/-- Claim C6: after calc_statistics, the stored standard deviation of a
pattern with at least one seed is null exactly when one seed is present;
with two or more seeds it equals, for each length index independently, the
population standard deviation of the raw survival data across the seed
axis, recomputed directly. -/
theorem calc_statistics_std (raw : List (List (List ℝ))) (i : ℕ)
    (pd : List (List ℝ)) (hpd : raw[i]? = some pd) (hone : 1 ≤ pd.length) :
    (computeYdata raw)[i]? = some (ydataOfPattern pd) ∧
      ((ydataOfPattern pd).std = none ↔ pd.length = 1) ∧
      (2 ≤ pd.length →
        (ydataOfPattern pd).std =
          some ((List.range (pd.headD []).length).map fun j =>
            popStdDirect (pd.map fun row => row.getD j 0))) := by
  refine ⟨?_, ?_, ?_⟩
  · simp [computeYdata, List.getElem?_map, hpd]
  · by_cases h : pd.length = 1 <;> simp [ydataOfPattern, h]
  · intro h2
    have hne : pd.length ≠ 1 := by omega
    have hn : ((pd.length : ℝ)) ≠ 0 := by
      have hpos : 0 < pd.length := by omega
      exact_mod_cast hpos.ne'
    simp only [ydataOfPattern, hne, if_false, npStdAxis0, Option.some.injEq]
    refine List.map_congr_left fun j hj => ?_
    have hmap : (pd.map fun r => (r.getD j 0 - colMean pd j) ^ 2) =
        ((pd.map fun row => row.getD j 0).map
          fun x => (x - colMean pd j) ^ 2) := by
      rw [List.map_map]
      rfl
    rw [hmap, popStdDirect, sum_sq_dev]
    have hlen : ((pd.map fun row => row.getD j 0).length : ℝ) = (pd.length : ℝ) := by
      rw [List.length_map]
    have hcm : colMean pd j = (pd.map fun row => row.getD j 0).sum / pd.length := rfl
    rw [hlen, hcm]
    congr 1
    field_simp
    ring

/-- The mutable state of one RBFitter instance: the construction-time
configuration (_cliff_lengths, _rb_pattern) and the accumulated
_result_list, _nseeds, _raw_data, _ydata and _fit. -/
structure RBState where
  cliff_lengths : List (List ℕ)
  rb_pattern : List (List ℕ)
  result_list : List PyResult
  nseeds : List ℕ
  raw_data : List (List (List ℝ))
  ydata : List Ydata
  fit : List (Option FitRecord)

/-- The state set up by RBFitter.__init__ before the initial add_data call:
empty result list, seed list, raw data and statistics, and one empty fit
dictionary per pattern. -/
def initState (cl patterns : List (List ℕ)) : RBState :=
  ⟨cl, patterns, [], [], [], [], patterns.map fun _ => none⟩

/-- The seed bookkeeping of RBFitter.add_data: for each circuit of each new
result, the seed parsed from the trailing name component
(int(rbcirc.header.name.split('_')[-1]), the seed field under the naming
contract) is appended to _nseeds when not already present. -/
def updateSeeds (acc : List ℕ) (new : List PyResult) : List ℕ :=
  new.foldl
    (fun a r =>
      r.results.foldl
        (fun a c => if c.name.seed ∈ a then a else a ++ [c.name.seed]) a)
    acc

/-- RBFitter.calc_data: recompute the raw survival data from all retained
results.  For every pattern index i, seed (in discovery order) and length
index k, the merged counts of the circuit named
"<type>_length_<k>_seed_<seed>" are marginalized onto the window produced
by the startind/endind loop (pattRanges) and the all-zero count on that
window, divided by the circuit's total shots, is stored. -/
def computeRaw (cl patterns : List (List ℕ)) (results : List PyResult)
    (nseeds : List ℕ) : List (List (List ℝ)) :=
  let t := circNameType results
  let ranges := pattRanges (patterns.map List.length)
  (List.range patterns.length).map fun i =>
    nseeds.map fun seed =>
      (List.range (cl.getD i []).length).map fun k =>
        survivalProb (mergedCounts results ⟨t, k, seed⟩)
          (ranges.getD i (0, 0)).1 (ranges.getD i (0, 0)).2
          (patterns.getD i []).length

/-- State update performed by calc_data. -/
def calcDataState (st : RBState) : RBState :=
  { st with raw_data := computeRaw st.cliff_lengths st.rb_pattern st.result_list st.nseeds }

/-- State update performed by calc_statistics. -/
def calcStatisticsState (st : RBState) : RBState :=
  { st with ydata := computeYdata st.raw_data }

/-- State update performed by fit_data. -/
def fitDataState (cf : CurveFit) (st : RBState) : RBState :=
  { st with fit := computeFit cf st.cliff_lengths st.rb_pattern st.ydata }

/-- The full recompute pipeline run by add_data when rerun_fit is true:
calc_data, then calc_statistics, then fit_data. -/
def runPipeline (cf : CurveFit) (st : RBState) : RBState :=
  fitDataState cf (calcStatisticsState (calcDataState st))

/-- RBFitter.add_data: append the new results to the retained list and
record newly seen seeds; then validate that every retained result has
exactly as many circuit entries as there are lengths for pattern 0, raising
a ValueError otherwise; only when validation passes and rerun_fit is true
does the recompute pipeline run.  The returned option is the raised error,
if any; the returned state reflects the mutations that have happened by the
time add_data returns or raises. -/
def addData (cf : CurveFit) (st : RBState) (new : List PyResult) (rerun : Bool) :
    RBState × Option String :=
  let st1 : RBState :=
    { st with
      result_list := st.result_list ++ new
      nseeds := updateSeeds st.nseeds new }
  if ∀ r ∈ st1.result_list, r.results.length = (st1.cliff_lengths.headD []).length then
    (if rerun then runPipeline cf st1 else st1, none)
  else (st1, some "ValueError")

/-- Claim C5: add_data raises exactly when some retained result's circuit
count differs from the declared number of lengths for pattern 0, and it
raises at ingestion time, before any of the recompute pipeline runs — on
the error path the raw data, the statistics and the fit are left exactly as
they were. -/
theorem add_data_validation (cf : CurveFit) (st : RBState) (new : List PyResult)
    (rerun : Bool) :
    (¬ (∀ r ∈ st.result_list ++ new,
          r.results.length = (st.cliff_lengths.headD []).length) →
        (addData cf st new rerun).2 = some "ValueError" ∧
          (addData cf st new rerun).1.raw_data = st.raw_data ∧
          (addData cf st new rerun).1.ydata = st.ydata ∧
          (addData cf st new rerun).1.fit = st.fit) ∧
      ((∀ r ∈ st.result_list ++ new,
          r.results.length = (st.cliff_lengths.headD []).length) →
        (addData cf st new rerun).2 = none) := by
  constructor
  · intro h
    simp only [addData]
    rw [if_neg h]
    exact ⟨rfl, rfl, rfl, rfl⟩
  · intro h
    simp only [addData]
    rw [if_pos h]

/-- Lookups into a counts dictionary only depend on the multiset of
entries. -/
theorem countOf_perm {c₁ c₂ : Counts} (h : c₁.Perm c₂) (o : Outcome) :
    countOf c₁ o = countOf c₂ o :=
  ((h.filter _).map _).sum_eq

/-- The total shot count only depends on the multiset of entries. -/
theorem totalShots_perm {c₁ c₂ : Counts} (h : c₁.Perm c₂) :
    totalShots c₁ = totalShots c₂ :=
  (h.map _).sum_eq

/-- Merging the counts of one circuit over a permuted retained-result list
yields a permutation of the merged counts. -/
theorem mergedCounts_perm {rs₁ rs₂ : List PyResult} (h : rs₁.Perm rs₂)
    (nm : CircName) : (mergedCounts rs₁ nm).Perm (mergedCounts rs₂ nm) :=
  (h.filterMap _).flatten

/-- The survival probability of a circuit only depends on the multiset of
merged count entries. -/
theorem survivalProb_perm {c₁ c₂ : Counts} (h : c₁.Perm c₂) (s e w : ℕ) :
    survivalProb c₁ s e w = survivalProb c₂ s e w := by
  have hm : (marginal_counts c₁ (List.range' s (e - s))).Perm
      (marginal_counts c₂ (List.range' s (e - s))) := h.map _
  unfold survivalProb
  rw [countOf_perm hm, totalShots_perm h]

/-- The deduplicating append step of the seed bookkeeping. -/
def dedupAppend (a : List ℕ) (s : ℕ) : List ℕ :=
  if s ∈ a then a else a ++ [s]

/-- The seeds named by the circuits of a result batch, in arrival order. -/
def seedList (new : List PyResult) : List ℕ :=
  new.flatMap fun r => r.results.map fun c => c.name.seed

/-- The nested seed-discovery fold of add_data is the deduplicating fold
over the flat list of named seeds. -/
theorem updateSeeds_eq_foldl (acc : List ℕ) (new : List PyResult) :
    updateSeeds acc new = (seedList new).foldl dedupAppend acc := by
  induction new generalizing acc with
  | nil => rfl
  | cons r rest ih =>
    show updateSeeds
        (r.results.foldl
          (fun a c => if c.name.seed ∈ a then a else a ++ [c.name.seed]) acc)
        rest = _
    rw [ih]
    simp only [seedList, List.flatMap_cons, List.foldl_append, List.foldl_map]
    rfl

/-- Membership in a deduplicating fold. -/
theorem mem_dedupFold (l : List ℕ) (acc : List ℕ) (x : ℕ) :
    x ∈ l.foldl dedupAppend acc ↔ x ∈ acc ∨ x ∈ l := by
  induction l generalizing acc with
  | nil => simp
  | cons a tl ih =>
    simp only [List.foldl_cons, dedupAppend]
    by_cases h : a ∈ acc
    · rw [if_pos h, ih]
      simp only [List.mem_cons]
      constructor
      · rintro (hx | hx)
        · exact Or.inl hx
        · exact Or.inr (Or.inr hx)
      · rintro (hx | hx | hx)
        · exact Or.inl hx
        · exact Or.inl (hx ▸ h)
        · exact Or.inr hx
    · rw [if_neg h, ih]
      simp only [List.mem_append, List.mem_singleton, List.mem_cons]
      tauto

/-- A deduplicating fold preserves distinctness. -/
theorem nodup_dedupFold (l : List ℕ) (acc : List ℕ) (h : acc.Nodup) :
    (l.foldl dedupAppend acc).Nodup := by
  induction l generalizing acc with
  | nil => exact h
  | cons a tl ih =>
    simp only [List.foldl_cons, dedupAppend]
    by_cases ha : a ∈ acc
    · rw [if_pos ha]
      exact ih acc h
    · rw [if_neg ha]
      refine ih _ ?_
      simp [List.nodup_append, h, ha]

/-- The discovered-seed list built from a permuted arrival order is a
permutation of the one built in natural order. -/
theorem updateSeeds_perm {rs rs' : List PyResult} (h : rs'.Perm rs) :
    (updateSeeds [] rs').Perm (updateSeeds [] rs) := by
  rw [updateSeeds_eq_foldl, updateSeeds_eq_foldl]
  rw [List.perm_ext_iff_of_nodup (nodup_dedupFold _ _ (by simp))
    (nodup_dedupFold _ _ (by simp))]
  intro x
  rw [mem_dedupFold, mem_dedupFold]
  simp only [List.not_mem_nil, false_or, seedList, List.mem_flatMap]
  constructor
  · rintro ⟨r, hr, hc⟩
    exact ⟨r, h.subset hr, hc⟩
  · rintro ⟨r, hr, hc⟩
    exact ⟨r, h.symm.subset hr, hc⟩

/-- Column means only depend on the multiset of rows. -/
theorem colMean_perm {rows rows' : List (List ℝ)} (h : rows'.Perm rows) (j : ℕ) :
    colMean rows' j = colMean rows j := by
  unfold colMean
  rw [(h.map _).sum_eq, h.length_eq]

/-- For rectangular data the column count read off the first row is stable
under permutation of the rows. -/
theorem headD_length_perm {rows rows' : List (List ℝ)} (h : rows'.Perm rows)
    {n : ℕ} (hall : ∀ r ∈ rows, r.length = n) :
    (rows'.headD []).length = (rows.headD []).length := by
  cases rows with
  | nil => rw [h.eq_nil]
  | cons a tl =>
    cases rows' with
    | nil =>
      have := h.length_eq
      simp at this
    | cons b tl' =>
      have hb : b ∈ a :: tl := h.subset (List.mem_cons_self b tl')
      have ha : a ∈ a :: tl := List.mem_cons_self a tl
      show b.length = a.length
      rw [hall b hb, hall a ha]

/-- The statistics calc_statistics stores for one pattern only depend on
the multiset of rectangular seed rows: means, standard deviations and the
single-seed null case are all invariant under permuting the rows. -/
theorem ydataOfPattern_perm {rows rows' : List (List ℝ)} (h : rows'.Perm rows)
    {n : ℕ} (hall : ∀ r ∈ rows, r.length = n) :
    ydataOfPattern rows' = ydataOfPattern rows := by
  have hw := headD_length_perm h hall
  have hmean : npMeanAxis0 rows' = npMeanAxis0 rows := by
    unfold npMeanAxis0
    rw [hw]
    exact List.map_congr_left fun j _ => colMean_perm h j
  have hstd : npStdAxis0 rows' = npStdAxis0 rows := by
    unfold npStdAxis0
    rw [hw]
    refine List.map_congr_left fun j _ => ?_
    simp only [colMean_perm h]
    rw [(h.map _).sum_eq, h.length_eq]
  unfold ydataOfPattern
  rw [hmean, hstd, h.length_eq]

/-- The experiment-type prefix extracted by calc_data is stable under
permutation of the retained results, provided every circuit of the
experiment carries the same type prefix and every result has the length
count that add_data validation enforces. -/
theorem circNameType_perm {rs rs' : List PyResult} (h : rs'.Perm rs)
    {t : String} (htype : ∀ r ∈ rs, ∀ c ∈ r.results, c.name.ctype = t)
    {n : ℕ} (hlen : ∀ r ∈ rs, r.results.length = n) :
    circNameType rs' = circNameType rs := by
  cases rs with
  | nil => rw [h.eq_nil]
  | cons a tl =>
    obtain ⟨b, tl', rfl⟩ : ∃ b tl', rs' = b :: tl' := by
      cases rs' with
      | nil =>
        have := h.length_eq
        simp at this
      | cons b tl' => exact ⟨b, tl', rfl⟩
    have hb : b ∈ a :: tl := h.subset (List.mem_cons_self b tl')
    have ha : a ∈ a :: tl := List.mem_cons_self a tl
    have hctype : ∀ r ∈ a :: tl,
        ((r.results.headD ⟨⟨"", 0, 0⟩, []⟩).name).ctype =
          if n = 0 then "" else t := by
      intro r hr
      cases hcase : r.results with
      | nil =>
        have h0 : n = 0 := by
          have := hlen r hr
          rw [hcase] at this
          simpa using this.symm
        rw [if_pos h0]
        rfl
      | cons c cs =>
        have h0 : n ≠ 0 := by
          have := hlen r hr
          rw [hcase] at this
          simp at this
          omega
        rw [if_neg h0]
        have hc : c ∈ r.results := by
          rw [hcase]
          exact List.mem_cons_self c cs
        exact htype r hr c hc
    show ((b.results.headD ⟨⟨"", 0, 0⟩, []⟩).name).ctype =
      ((a.results.headD ⟨⟨"", 0, 0⟩, []⟩).name).ctype
    rw [hctype b hb, hctype a ha]

/-- The statistics computed from a permuted arrival order coincide with the
statistics computed in natural order: merged counts, discovered seeds and
per-pattern rows are each permutation-stable, and the per-length statistics
are multiset functions of the rows. -/
theorem computeYdata_perm (cl patterns : List (List ℕ))
    {rs rs' : List PyResult} {t : String} (hperm : rs'.Perm rs)
    (htype : ∀ r ∈ rs, ∀ c ∈ r.results, c.name.ctype = t)
    (hlen : ∀ r ∈ rs, r.results.length = (cl.headD []).length) :
    computeYdata (computeRaw cl patterns rs' (updateSeeds [] rs')) =
      computeYdata (computeRaw cl patterns rs (updateSeeds [] rs)) := by
  have htt : circNameType rs' = circNameType rs :=
    circNameType_perm hperm htype hlen
  unfold computeYdata computeRaw
  simp only [List.map_map]
  refine List.map_congr_left fun i _ => ?_
  dsimp only [Function.comp]
  have hrowf :
      (fun seed => (List.range (cl.getD i []).length).map fun k =>
          survivalProb (mergedCounts rs' ⟨circNameType rs', k, seed⟩)
            ((pattRanges (patterns.map List.length)).getD i (0, 0)).1
            ((pattRanges (patterns.map List.length)).getD i (0, 0)).2
            (patterns.getD i []).length) =
        fun seed => (List.range (cl.getD i []).length).map fun k =>
          survivalProb (mergedCounts rs ⟨circNameType rs, k, seed⟩)
            ((pattRanges (patterns.map List.length)).getD i (0, 0)).1
            ((pattRanges (patterns.map List.length)).getD i (0, 0)).2
            (patterns.getD i []).length := by
    funext seed
    refine List.map_congr_left fun k _ => ?_
    rw [htt]
    exact survivalProb_perm (mergedCounts_perm hperm _) _ _ _
  rw [hrowf]
  refine ydataOfPattern_perm (((updateSeeds_perm hperm).map _))
    (n := (cl.getD i []).length) ?_
  intro r hr
  obtain ⟨s, _, rfl⟩ := List.mem_map.mp hr
  simp

/-- Claim C8: adding a fixed set of per-seed results in any arrival order
yields final aggregate statistics (per-length means and standard
deviations) and fit parameters identical to adding them in natural order,
and the same ingestion-validation outcome, provided all circuits carry the
experiment's common type prefix. -/
theorem seed_order_invariance (cf : CurveFit) (cl patterns : List (List ℕ))
    (rs rs' : List PyResult) (t : String) (hperm : rs'.Perm rs)
    (htype : ∀ r ∈ rs, ∀ c ∈ r.results, c.name.ctype = t) :
    (addData cf (initState cl patterns) rs' true).1.ydata =
        (addData cf (initState cl patterns) rs true).1.ydata ∧
      (addData cf (initState cl patterns) rs' true).1.fit =
        (addData cf (initState cl patterns) rs true).1.fit ∧
      (addData cf (initState cl patterns) rs' true).2 =
        (addData cf (initState cl patterns) rs true).2 := by
  simp only [addData, initState, List.nil_append]
  by_cases hv : ∀ r ∈ rs, r.results.length = (cl.headD []).length
  · have hv' : ∀ r ∈ rs', r.results.length = (cl.headD []).length :=
      fun r hr => hv r (hperm.subset hr)
    have hyd := computeYdata_perm cl patterns hperm htype hv
    rw [if_pos hv, if_pos hv']
    exact ⟨hyd, congrArg (computeFit cf cl patterns) hyd, rfl⟩
  · have hv' : ¬ ∀ r ∈ rs', r.results.length = (cl.headD []).length := by
      intro hh
      exact hv fun r hr => hh r (hperm.mem_iff.mpr hr)
    rw [if_neg hv, if_neg hv']
    exact ⟨rfl, rfl, rfl⟩

/-- A concrete optimizer instantiation used by the witnesses below: it
returns the fixed parameters (1, 1/2, 0) with standard errors
(0, 1/10, 0). -/
def cfW : CurveFit := fun _ _ _ _ => (⟨1, 1 / 2, 0⟩, ⟨0, 1 / 10, 0⟩)

/-- Witness for claim C2 at a concrete instantiation: one qubit, fitted
alpha = 1/2 with error 1/10. -/
theorem fit_data_pattern_epc_formulas_witness :
    cfW [1] (Ydata.mk [] none).mean (sigmaOf (Ydata.mk [] none).std) (1, 1, 0) =
        (⟨1, 1 / 2, 0⟩, ⟨0, 1 / 10, 0⟩) ∧
      (FitParams.mk 1 (1 / 2) 0).alpha ≠ 0 ∧
      ((fit_data_pattern cfW [1] [0] (Ydata.mk [] none) (1, 1, 0)).epc =
          ((2 : ℝ) ^ ([0] : List ℕ).length - 1) / (2 : ℝ) ^ ([0] : List ℕ).length *
            (1 - (FitParams.mk 1 (1 / 2) 0).alpha) ∧
        (fit_data_pattern cfW [1] [0] (Ydata.mk [] none) (1, 1, 0)).epc_err =
          (fit_data_pattern cfW [1] [0] (Ydata.mk [] none) (1, 1, 0)).epc *
            (FitParams.mk 0 (1 / 10) 0).alpha / (FitParams.mk 1 (1 / 2) 0).alpha) := by
  have hz : (FitParams.mk 1 (1 / 2) 0).alpha ≠ 0 := by
    show (1 : ℝ) / 2 ≠ 0
    norm_num
  exact ⟨rfl, hz,
    fit_data_pattern_epc_formulas cfW [1] [0] (Ydata.mk [] none) (1, 1, 0)
      ⟨1, 1 / 2, 0⟩ ⟨0, 1 / 10, 0⟩ rfl hz⟩

/-- Witness for claim C5 at concrete instantiations: a result carrying no
circuit entries against one declared length for pattern 0 (the error path),
and an empty batch (the validation-passing path). -/
theorem add_data_validation_witness :
    (¬ (∀ r ∈ (initState [[5]] [[0]]).result_list ++ [PyResult.mk []],
          r.results.length = ((initState [[5]] [[0]]).cliff_lengths.headD []).length)) ∧
      ((addData cfW (initState [[5]] [[0]]) [PyResult.mk []] true).2 = some "ValueError" ∧
        (addData cfW (initState [[5]] [[0]]) [PyResult.mk []] true).1.raw_data =
          (initState [[5]] [[0]]).raw_data ∧
        (addData cfW (initState [[5]] [[0]]) [PyResult.mk []] true).1.ydata =
          (initState [[5]] [[0]]).ydata ∧
        (addData cfW (initState [[5]] [[0]]) [PyResult.mk []] true).1.fit =
          (initState [[5]] [[0]]).fit) ∧
      (∀ r ∈ (initState [[5]] [[0]]).result_list ++ ([] : List PyResult),
          r.results.length = ((initState [[5]] [[0]]).cliff_lengths.headD []).length) ∧
      (addData cfW (initState [[5]] [[0]]) [] true).2 = none := by
  have hneg : ¬ (∀ r ∈ (initState [[5]] [[0]]).result_list ++ [PyResult.mk []],
      r.results.length = ((initState [[5]] [[0]]).cliff_lengths.headD []).length) := by
    decide
  have hpos : ∀ r ∈ (initState [[5]] [[0]]).result_list ++ ([] : List PyResult),
      r.results.length = ((initState [[5]] [[0]]).cliff_lengths.headD []).length := by
    decide
  exact ⟨hneg,
    (add_data_validation cfW (initState [[5]] [[0]]) [PyResult.mk []] true).1 hneg,
    hpos,
    (add_data_validation cfW (initState [[5]] [[0]]) [] true).2 hpos⟩

/-- Witness for claim C6 at a concrete instantiation: one pattern, two
seeds, two lengths. -/
theorem calc_statistics_std_witness :
    ([[[(1 : ℝ), 2], [3, 4]]] : List (List (List ℝ)))[0]? =
        some [[(1 : ℝ), 2], [3, 4]] ∧
      1 ≤ ([[(1 : ℝ), 2], [3, 4]] : List (List ℝ)).length ∧
      ((computeYdata [[[(1 : ℝ), 2], [3, 4]]])[0]? =
          some (ydataOfPattern [[(1 : ℝ), 2], [3, 4]]) ∧
        ((ydataOfPattern [[(1 : ℝ), 2], [3, 4]]).std = none ↔
          ([[(1 : ℝ), 2], [3, 4]] : List (List ℝ)).length = 1) ∧
        (2 ≤ ([[(1 : ℝ), 2], [3, 4]] : List (List ℝ)).length →
          (ydataOfPattern [[(1 : ℝ), 2], [3, 4]]).std =
            some ((List.range (([[(1 : ℝ), 2], [3, 4]] : List (List ℝ)).headD []).length).map
              fun j => popStdDirect ([[(1 : ℝ), 2], [3, 4]].map fun row => row.getD j 0)))) := by
  have hpd : ([[[(1 : ℝ), 2], [3, 4]]] : List (List (List ℝ)))[0]? =
      some [[(1 : ℝ), 2], [3, 4]] := rfl
  have hone : 1 ≤ ([[(1 : ℝ), 2], [3, 4]] : List (List ℝ)).length := by norm_num
  exact ⟨hpd, hone, calc_statistics_std [[[(1 : ℝ), 2], [3, 4]]] 0 [[(1 : ℝ), 2], [3, 4]] hpd hone⟩

/-- A first concrete seed-0 result used by the claim C8 witness. -/
def rA : PyResult := ⟨[⟨⟨"rb", 0, 0⟩, [([false], 3)]⟩]⟩

/-- A second concrete seed-1 result used by the claim C8 witness. -/
def rB : PyResult := ⟨[⟨⟨"rb", 0, 1⟩, [([false], 2), ([true], 1)]⟩]⟩

/-- Witness for claim C8 at a concrete instantiation: two one-circuit
results for seeds 0 and 1, added in the two possible orders. -/
theorem seed_order_invariance_witness :
    ([rB, rA] : List PyResult).Perm [rA, rB] ∧
      (∀ r ∈ ([rA, rB] : List PyResult), ∀ c ∈ r.results, c.name.ctype = "rb") ∧
      ((addData cfW (initState [[1]] [[0]]) [rB, rA] true).1.ydata =
          (addData cfW (initState [[1]] [[0]]) [rA, rB] true).1.ydata ∧
        (addData cfW (initState [[1]] [[0]]) [rB, rA] true).1.fit =
          (addData cfW (initState [[1]] [[0]]) [rA, rB] true).1.fit ∧
        (addData cfW (initState [[1]] [[0]]) [rB, rA] true).2 =
          (addData cfW (initState [[1]] [[0]]) [rA, rB] true).2) := by
  have h1 : ([rB, rA] : List PyResult).Perm [rA, rB] := List.Perm.swap rA rB []
  have h2 : ∀ r ∈ ([rA, rB] : List PyResult), ∀ c ∈ r.results, c.name.ctype = "rb" := by
    decide
  exact ⟨h1, h2, seed_order_invariance cfW [[1]] [[0]] [rA, rB] [rB, rA] "rb" h1 h2⟩

end

end RBFit
